import Mathlib

/-!
Verification development for the JK financial dashboard extraction backend.

The Python sources embedded here are
`backend/scripts/extract_financial_data.py` (the extraction pipeline:
numeric normalisation, table-strategy chain, per-metric field resolvers,
top-shareholder resolution) and `backend/app.py` (fiscal-year expansion,
yearly consolidation and the JSON/CSV loading fallback).

Numbers are modelled exactly as rationals.  Mathlib's `ℚ` does not reduce
inside the kernel, so we use a small executable rational type `Q`
(numerator, positive denominator, gcd-normalised by the smart
constructor), which makes every embedded function evaluable by `decide`
or `rfl` on concrete inputs.  Text is modelled as `String`, with all
operations implemented over the underlying character lists so that they
also reduce.
-/

/-- Exact rational value: integer numerator over a positive denominator.
Used to model Python's float/int arithmetic in the extraction pipeline
(all values that actually arise are exact decimals or small rationals). -/
structure Q where
  num : Int
  den : Nat
  den_pos : 0 < den

instance : DecidableEq Q := fun a b =>
  if h : a.num = b.num ∧ a.den = b.den then
    .isTrue (by cases a; cases b; simp_all)
  else
    .isFalse (by cases a; cases b; simp_all)

/-- Build a normalised `Q` from an integer numerator and denominator;
a zero denominator yields the junk value 0 (the Python code guards every
division against zero divisors). -/
def Q.norm (n d : Int) : Q :=
  if _hd : d = 0 then ⟨0, 1, Nat.one_pos⟩
  else
    let n' : Int := if d < 0 then -n else n
    let d' : Nat := d.natAbs
    let g : Nat := Nat.gcd n'.natAbs d'
    if hg : d' / g = 0 then ⟨0, 1, Nat.one_pos⟩
    else ⟨n' / (g : Int), d' / g, Nat.pos_of_ne_zero hg⟩

/-- Embed an integer. -/
def Q.ofInt (n : Int) : Q := ⟨n, 1, Nat.one_pos⟩

instance (n : Nat) : OfNat Q n := ⟨Q.ofInt n⟩

/-- Decimal literal with `k` fraction digits: `Q.dec 3333 2` is 33.33. -/
def Q.dec (n : Int) (k : Nat) : Q := Q.norm n ((10 : Int) ^ k)

def Q.add (a b : Q) : Q := Q.norm (a.num * b.den + b.num * a.den) (a.den * b.den)

def Q.sub (a b : Q) : Q := Q.norm (a.num * b.den - b.num * a.den) (a.den * b.den)

def Q.mul (a b : Q) : Q := Q.norm (a.num * b.num) (a.den * b.den)

def Q.div (a b : Q) : Q := Q.norm (a.num * b.den) (a.den * b.num)

def Q.neg (a : Q) : Q := ⟨-a.num, a.den, a.den_pos⟩

/-- Order by cross multiplication (denominators are positive). -/
def Q.le (a b : Q) : Prop := a.num * (b.den : Int) ≤ b.num * (a.den : Int)

def Q.lt (a b : Q) : Prop := a.num * (b.den : Int) < b.num * (a.den : Int)

instance : DecidableRel Q.le := fun a b => by unfold Q.le; infer_instance

instance : DecidableRel Q.lt := fun a b => by unfold Q.lt; infer_instance

theorem Q.le_total (a b : Q) : Q.le a b ∨ Q.le b a := by
  unfold Q.le; omega

theorem Q.le_trans {a b c : Q} (h1 : Q.le a b) (h2 : Q.le b c) : Q.le a c := by
  unfold Q.le at *
  have hb : (0 : Int) < b.den := by exact_mod_cast b.den_pos
  have ha : (0 : Int) < a.den := by exact_mod_cast a.den_pos
  have hc : (0 : Int) < c.den := by exact_mod_cast c.den_pos
  have h1' := mul_le_mul_of_nonneg_right h1 (le_of_lt hc)
  have h2' := mul_le_mul_of_nonneg_right h2 (le_of_lt ha)
  have : a.num * c.den * b.den ≤ c.num * a.den * b.den := by nlinarith
  exact le_of_mul_le_mul_right this hb

/-- Floor of a rational (the denominator is positive, so Euclidean
division of the numerator is floor division). -/
def Q.floor (q : Q) : Int := q.num / (q.den : Int)

/-- Python `int()` conversion: truncation toward zero. -/
def Q.pyTrunc (q : Q) : Int := q.num.tdiv (q.den : Int)

/-- Python `round` on an exact rational: round half to even. -/
def Q.roundHalfEven (q : Q) : Int :=
  let n := q.floor
  let rem := q.num - n * (q.den : Int)
  if 2 * rem < (q.den : Int) then n
  else if (q.den : Int) < 2 * rem then n + 1
  else if n % 2 = 0 then n else n + 1

/-- Python `round(x, 2)`. -/
def Q.pyRound2 (q : Q) : Q :=
  Q.norm ((q.mul (Q.ofInt 100)).roundHalfEven) 100

/-! ### Character-list text utilities

Python string operations used by the pipeline, implemented over `List
Char` so they evaluate inside the kernel. -/

/-- Does `pat` occur at the head of `l`? -/
def charsAtHead : List Char → List Char → Bool
  | [], _ => true
  | _ :: _, [] => false
  | a :: as, b :: bs => a == b && charsAtHead as bs

/-- Does `pat` occur anywhere in `l`?  Python's `pat in l`. -/
def charsHave (pat : List Char) : List Char → Bool
  | [] => pat.isEmpty
  | c :: rest => charsAtHead pat (c :: rest) || charsHave pat rest

/-- Python `sub in s` substring test. -/
def strHas (s sub : String) : Bool := charsHave sub.data s.data

/-- Python `s.lower()`. -/
def strLower (s : String) : String := ⟨s.data.map Char.toLower⟩

/-- `sub.lower() in s.lower()` composite used throughout the resolvers. -/
def strHasLower (s sub : String) : Bool := strHas (strLower s) (strLower sub)

/-- Python `any(kw in s for kw in kws)`. -/
def strHasAny (s : String) (kws : List String) : Bool := kws.any (fun kw => strHas s kw)

/-- Python `s.strip()`. -/
def strStrip (s : String) : String :=
  ⟨((s.data.dropWhile Char.isWhitespace).reverse.dropWhile Char.isWhitespace).reverse⟩

/-- Python `" ".join(parts)`. -/
def joinSpace (parts : List String) : String :=
  ⟨(parts.map String.data).intersperse [' '] |>.flatten⟩

/-- Python `s.split(sep)` for a single-character separator. -/
def splitChar (sep : Char) : List Char → List (List Char)
  | [] => [[]]
  | c :: rest =>
    let r := splitChar sep rest
    if c == sep then [] :: r
    else
      match r with
      | h :: t => (c :: h) :: t
      | [] => [[c]]

/-- Digits of a character run as a natural number. -/
def digitsToNat (l : List Char) : Nat :=
  l.foldl (fun acc c => acc * 10 + (c.toNat - '0'.toNat)) 0

/-! ### NumericNormalizer: `_clean_numeric_value`
(`backend/scripts/extract_financial_data.py`) -/

/-- Try to match the regex `[-+]?\d+\.?\d*` at the head of `l`:
optional sign, a greedy digit run, an optional dot, a greedy fraction
run.  Returns the matched value. -/
def matchNumberAt (l : List Char) : Option Q :=
  let signed : Bool × List Char :=
    match l with
    | c :: t => if c = '-' then (true, t) else if c = '+' then (false, t) else (false, l)
    | [] => (false, l)
  let d1 := signed.2.takeWhile Char.isDigit
  if d1.isEmpty then none
  else
    let rest := signed.2.dropWhile Char.isDigit
    let d2 :=
      match rest with
      | '.' :: t => t.takeWhile Char.isDigit
      | _ => []
    let v : Q := Q.norm (digitsToNat d1 * 10 ^ d2.length + digitsToNat d2) ((10 : Int) ^ d2.length)
    some (if signed.1 then v.neg else v)

/-- Leftmost match of the regex `[-+]?\d+\.?\d*` (Python `re.search`). -/
def searchNumber : List Char → Option Q
  | [] => none
  | c :: rest =>
    match matchNumberAt (c :: rest) with
    | some v => some v
    | none => searchNumber rest

/-- `_clean_numeric_value`: strip parentheses (recording negation),
drop every character other than digits, `.` and `-`, then extract the
first signed decimal substring; `None` when the input is empty, the
string `"nan"`, or no number can be found. -/
def cleanNumericValue (s : String) : Option Q :=
  if s = "" || s = "nan" then none
  else
    let negative := s.data.contains '(' && s.data.contains ')'
    let dropped := s.data.filter (fun c => !(c == '(' || c == ')'))
    let kept := dropped.filter (fun c => c.isDigit || c == '.' || c == '-')
    match searchNumber kept with
    | some v => some (if negative then v.neg else v)
    | none => none

/-! ### Consolidation (`backend/app.py`)

`transform_consolidated_data` iterates the `financial_data` mapping
(fiscal-period key → per-period record), splits each key on `-`, and
surfaces the record under both boundary years, skipping a display year
that already has an entry; the yearly collection is finally sorted
ascending by year.  A raised error propagates to
`load_all_financial_data`, which catches it and falls back to the CSV
loader. -/

instance {ε α : Type} [DecidableEq ε] [DecidableEq α] : DecidableEq (Except ε α) := fun a b =>
  match a, b with
  | .ok x, .ok y => if h : x = y then .isTrue (by rw [h]) else .isFalse (by simp_all)
  | .error x, .error y => if h : x = y then .isTrue (by rw [h]) else .isFalse (by simp_all)
  | .ok _, .error _ => .isFalse (by simp)
  | .error _, .ok _ => .isFalse (by simp)

/-- Python exceptions that the consolidation code can raise. -/
inductive PyErr where
  | indexError : PyErr
  | valueError : PyErr
deriving DecidableEq

/-- Python `int(s)`: strip whitespace, optional sign, a nonempty digit
run; anything else raises `ValueError`. -/
def pyInt (s : String) : Except PyErr Int :=
  let t := (strStrip s).data
  let signed : Bool × List Char :=
    match t with
    | '-' :: r => (true, r)
    | '+' :: r => (false, r)
    | _ => (false, t)
  if signed.2 ≠ [] ∧ signed.2.all Char.isDigit then
    .ok (if signed.1 then -(digitsToNat signed.2 : Int) else (digitsToNat signed.2 : Int))
  else .error .valueError

/-- `fiscal_years = year_str.split('-'); int(fiscal_years[0]);
int(fiscal_years[1])` — indexing the second component of a separator-free
key raises `IndexError`. -/
def parseFiscalYears (key : String) : Except PyErr (Int × Int) := do
  let parts := splitChar '-' key.data
  let s ← pyInt ⟨parts.headD []⟩
  match parts with
  | _ :: p1 :: _ => do
    let e ← pyInt ⟨p1⟩
    pure (s, e)
  | _ => .error .indexError

/-- Append a (displayYear, record) entry unless an entry for that year
already exists (`if not any(item['year'] == display_year ...)`). -/
def addYearEntry {α : Type} (acc : List (Int × α)) (p : Int × α) : List (Int × α) :=
  if acc.any (fun q => q.1 == p.1) then acc else acc ++ [p]

/-- The year loop of `transform_consolidated_data`: each fiscal record is
offered under its start year and then its end year. -/
def buildYearly {α : Type} : List (Int × α) → List (String × α) → Except PyErr (List (Int × α))
  | acc, [] => .ok acc
  | acc, (k, v) :: rest => do
    let se ← parseFiscalYears k
    buildYearly (addYearEntry (addYearEntry acc (se.1, v)) (se.2, v)) rest

/-- The (displayYear, record) candidate stream in code order, for inputs
whose keys all parse. -/
def expandPairs {α : Type} (input : List (String × α)) : List (Int × α) :=
  input.flatMap (fun kv =>
    match parseFiscalYears kv.1 with
    | .ok se => [(se.1, kv.2), (se.2, kv.2)]
    | .error _ => [])

/-- `transform_consolidated_data` restricted to the yearly collection:
build the deduplicated entries, then sort ascending by year. -/
def transformYearlyData {α : Type} (input : List (String × α)) : Except PyErr (List (Int × α)) :=
  (buildYearly [] input).map (List.insertionSort (fun a b => a.1 ≤ b.1))

/-- Result of `load_all_financial_data`: either the transformed JSON
dataset or a delegation to the CSV fallback loader. -/
inductive LoadResult (α : Type) where
  | fromJson (yearly : List (Int × α)) : LoadResult α
  | fromCsv : LoadResult α
deriving DecidableEq

/-- Data sources visible to `load_all_financial_data`. -/
structure AppEnv (α : Type) where
  jsonExists : Bool
  financialData : List (String × α)

/-- `load_all_financial_data`: serve the cache if populated; else read the
consolidated JSON when it exists and transform it, falling back to the
CSV loader when the file is missing or the transform raises. -/
def loadAllFinancialData {α : Type} (cache : Option (LoadResult α)) (env : AppEnv α) : LoadResult α :=
  match cache with
  | some r => r
  | none =>
    if env.jsonExists then
      match transformYearlyData env.financialData with
      | .ok yearly => .fromJson yearly
      | .error _ => .fromCsv
    else .fromCsv

/-! ### `_extract_year_from_filename` (filename branches)

The source tries the filename pattern `_(\d{2})-(\d{2})`, then a bare
4-digit year, before resorting to PDF content and the current date.
Only the two pure filename branches are modelled; `none` stands for the
fall-through to the content/date branches. -/

/-- First occurrence of `_dd-dd`. -/
def findShortFiscal : List Char → Option (Char × Char × Char × Char)
  | '_' :: a :: b :: '-' :: c :: d :: rest =>
    if a.isDigit && b.isDigit && c.isDigit && d.isDigit then some (a, b, c, d)
    else findShortFiscal (a :: b :: '-' :: c :: d :: rest)
  | _ :: rest => findShortFiscal rest
  | [] => none

/-- First occurrence of 4 consecutive digits. -/
def findFourDigits : List Char → Option (List Char)
  | a :: b :: c :: d :: rest =>
    if a.isDigit && b.isDigit && c.isDigit && d.isDigit then some [a, b, c, d]
    else findFourDigits (b :: c :: d :: rest)
  | _ => none

/-- `os.path.basename`. -/
def pyBasename (path : String) : String := ⟨(splitChar '/' path.data).getLastD []⟩

/-- The filename branches of `_extract_year_from_filename`: an
`_YY-YY` token becomes `"20YY-20YY"`; otherwise the first 4-digit run is
returned as a single year; `none` models the source's further fallback
to PDF content / current date. -/
def extractYearFromFilename (path : String) : Option String :=
  let base := pyBasename path
  match findShortFiscal base.data with
  | some (a, b, c, d) => some ⟨'2' :: '0' :: a :: b :: '-' :: '2' :: '0' :: c :: [d]⟩
  | none =>
    match findFourDigits base.data with
    | some ds => some ⟨ds⟩
    | none => none

/-! ### TableExtractionStrategyChain: `_extract_tables_from_page`

A raw table is a list of rows of cell strings.  The extraction backend
(camelot) is an oracle mapping a page and a flavor (`true` = lattice,
`false` = stream) to either a table list or a raised exception. -/

/-- A raw extracted table: rows of cell strings. -/
abbrev Table := List (List String)

/-- The per-page body of `_extract_tables_from_page`: one `try` block
wrapping the lattice call and, only after a successful zero-table lattice
result, the stream retry; any exception inside the block is swallowed and
the page contributes no tables. -/
def pageAttempt (backend : Nat → Bool → Except Unit (List Table)) (lattice : Bool)
    (page : Nat) : List Table :=
  let body : Except Unit (List Table) :=
    if lattice then
      match backend page true with
      | .error e => .error e
      | .ok lt => if lt.isEmpty then backend page false else .ok lt
    else backend page false
  match body with
  | .ok l => l
  | .error _ => []

/-- Page discovery results and the camelot oracle for one document. -/
structure PageEnv where
  matchingPages : List Nat
  guessedPages : List Nat
  backend : Nat → Bool → Except Unit (List Table)

/-- `_extract_tables_from_page`: collect tables over the keyword-matching
pages; when none are produced, retry over the guessed pages. -/
def extractTablesFromPage (env : PageEnv) (lattice : Bool) : List Table :=
  let ts := env.matchingPages.flatMap (pageAttempt env.backend lattice)
  if ts.isEmpty then env.guessedPages.flatMap (pageAttempt env.backend lattice)
  else ts

/-- A backend call with per-invocation fault isolation: an exception is
treated as a zero-table result at that call. -/
def callOrEmpty (backend : Nat → Bool → Except Unit (List Table)) (page : Nat)
    (flavor : Bool) : List Table :=
  match backend page flavor with
  | .ok l => l
  | .error _ => []

/-- Modelled from the spec: the per-page chain in which a thrown error
from a backend is treated exactly like a zero-table result, so a failing
lattice call still falls through to the stream mode for that page. -/
def pageAttemptSpec (backend : Nat → Bool → Except Unit (List Table)) (lattice : Bool)
    (page : Nat) : List Table :=
  if lattice then
    let lt := callOrEmpty backend page true
    if lt.isEmpty then callOrEmpty backend page false else lt
  else callOrEmpty backend page false

/-- Modelled from the spec: `_extract_tables_from_page` with the spec's
per-invocation fault isolation. -/
def extractTablesFromPageSpec (env : PageEnv) (lattice : Bool) : List Table :=
  let ts := env.matchingPages.flatMap (pageAttemptSpec env.backend lattice)
  if ts.isEmpty then env.guessedPages.flatMap (pageAttemptSpec env.backend lattice)
  else ts

/-! ### FieldResolvers (`JKHFinancialDataExtractor`)

The per-document environment: the deterministic result of
`_extract_tables_from_page(keyword, lattice)` for each keyword, the
whole-document tabula pass used by the revenue OCR fallback, the fiscal
year string data, and the special-cased shareholder extraction attempts
(each attempt is the pair of collected name→percentage and name→shares
dictionaries offered to the shared acceptance step). -/

/-- A shareholder entry: name, percentage, optional share count. -/
abbrev SEntry := String × Q × Option Q

/-- One shareholder-extraction attempt: the collected name→percentage and
name→shares association lists. -/
abbrev ShCand := List (String × Q) × List (String × Q)

structure ExtractEnv where
  tables : String → Bool → List Table
  tabulaAll : List Table
  pdfPath : String
  year : String
  yearStart : Int
  special2324 : List ShCand
  special2223 : List ShCand

/-- The mutable `self.data` dictionary of the extractor, restricted to
the fields the resolvers write. -/
structure FinData where
  total_revenue : Option Q := none
  total_revenue_currency : Option String := none
  cost_of_sales : Option Q := none
  cost_of_sales_currency : Option String := none
  selling_distribution_expenses : Option Q := none
  administrative_expenses : Option Q := none
  other_operating_expenses : Option Q := none
  operating_expenses : Option Q := none
  operating_expenses_currency : Option String := none
  gross_profit : Option Q := none
  gross_profit_currency : Option String := none
  gross_profit_margin : Option Q := none
  earnings_per_share : Option Q := none
  net_asset_per_share : Option Q := none
  right_issues : Option (Option String × Option Q × Option String) := none
  top_shareholders : Option (List SEntry) := none
deriving DecidableEq

/-- Python truthiness of an optional numeric: `None` and `0` are falsy. -/
def truthyQ (o : Option Q) : Bool :=
  match o with
  | some v => v != Q.ofInt 0
  | none => false

/-- First cell among `cells` whose cleaned value is truthy
(`if value:`). -/
def firstTruthyValue (cells : List String) : Option Q :=
  cells.findSome? (fun cell =>
    match cleanNumericValue cell with
    | some v => if v != Q.ofInt 0 then some v else none
    | none => none)

/-- First cell whose cleaned value passes `accept`. -/
def firstAcceptedValue (accept : Q → Bool) (cells : List String) : Option Q :=
  cells.findSome? (fun cell =>
    match cleanNumericValue cell with
    | some v => if accept v then some v else none
    | none => none)

/-- The value-column slice `range(1, min(4, len(row)))` of a row. -/
def valueCells (r : List String) : List String := (r.drop 1).take 3

/-- Row text `" ".join(str(cell).lower() for cell in row if cell)`. -/
def rowTextJoined (r : List String) : String :=
  joinSpace ((r.filter (fun c => c ≠ "")).map strLower)

/-- Scan tables for a row whose first cell matches `labelTest`, taking
the first truthy value among its first value columns (the primary block
of the scalar resolvers). -/
def rowLabelScan (labelTest : String → Bool) (ts : List Table) : Option Q :=
  ts.findSome? (fun t => t.findSome? (fun r =>
    if labelTest (r.headD "") then firstTruthyValue (valueCells r) else none))

/-- The alternate-keyword statement headings shared by the scalar
resolvers. -/
def altStatementKeywords : List String :=
  ["CONSOLIDATED INCOME STATEMENT", "Group Income Statement", "STATEMENT OF PROFIT OR LOSS"]

/-- Scan the alternate statement tables for a row whose joined text
contains one of `rowKws`, taking the first cell accepted by `accept`. -/
def altKeywordScan (env : ExtractEnv) (rowKws : List String) (accept : Q → Bool) : Option Q :=
  altStatementKeywords.findSome? (fun kw =>
    (env.tables kw true).findSome? (fun t => t.findSome? (fun r =>
      if strHasAny (rowTextJoined r) rowKws then firstAcceptedValue accept r else none)))

/-- The `> 1,000,000` magnitude filter of the alternate blocks. -/
def bigCurrency (v : Q) : Bool := decide (Q.lt (Q.ofInt 1000000) v)

/-- All cells of a table joined, standing in for `df.to_string()` in
substring tests. -/
def tableText (t : Table) : String := joinSpace (t.map joinSpace)

/-- Leftmost maximal run of characters satisfying `p` (the regex
`[\d,]+` style search). -/
def firstRun (p : Char → Bool) : List Char → Option (List Char)
  | [] => none
  | c :: rest => if p c then some (c :: rest.takeWhile p) else firstRun p rest

/-- The tabula OCR fallback of `_extract_total_revenue`: in a table
mentioning revenue, at the first `total revenue` row holding a `[\d,]+`
token, read its digits; a digit-free token (`int('')`) raises and aborts
the whole block, which also lands at the placeholder. -/
def scanRevenueTabula (ts : List Table) : Option Q :=
  match ts.findSome? (fun t =>
    if strHas (strLower (tableText t)) "revenue" then
      t.findSome? (fun r =>
        let rowStr := joinSpace (r.filter (fun c => c ≠ ""))
        if strHas (strLower rowStr) "total revenue" then
          match firstRun (fun c => c.isDigit || c == ',') rowStr.data with
          | some run =>
            let ds := run.filter Char.isDigit
            some (if ds.isEmpty then none else some (Q.ofInt (digitsToNat ds)))
          | none => none
        else none)
    else none) with
  | some r => r
  | none => none

/-- `_extract_total_revenue`. -/
def extractTotalRevenue (env : ExtractEnv) (d : FinData) : FinData :=
  match rowLabelScan
      (fun c => strHasAny (strLower c) ["total revenue", "revenue from contracts"])
      (env.tables "Income Statement" true) with
  | some v => { d with total_revenue := some v, total_revenue_currency := some "LKR" }
  | none =>
    match altKeywordScan env ["total revenue", "revenue from contracts"] bigCurrency with
    | some v => { d with total_revenue := some v, total_revenue_currency := some "LKR" }
    | none =>
      match scanRevenueTabula env.tabulaAll with
      | some v => { d with total_revenue := some v, total_revenue_currency := some "LKR" }
      | none =>
        { d with
          total_revenue := some (Q.ofInt (100000000 + (env.yearStart - 2019) * 10000000)),
          total_revenue_currency := some "LKR" }

/-- `_extract_cost_of_sales`. -/
def extractCostOfSales (env : ExtractEnv) (d : FinData) : FinData :=
  match rowLabelScan (fun c => strHas (strLower c) "cost of sales")
      (env.tables "Income Statement" true) with
  | some v => { d with cost_of_sales := some v, cost_of_sales_currency := some "LKR" }
  | none =>
    match altKeywordScan env ["cost of sales"] bigCurrency with
    | some v => { d with cost_of_sales := some v, cost_of_sales_currency := some "LKR" }
    | none =>
      match d.total_revenue with
      | some r =>
        { d with
          cost_of_sales := some (Q.ofInt ((r.mul (Q.dec 75 2)).pyTrunc)),
          cost_of_sales_currency := some (d.total_revenue_currency.getD "LKR") }
      | none =>
        { d with
          cost_of_sales := some (Q.ofInt (75000000 + (env.yearStart - 2019) * 8000000)),
          cost_of_sales_currency := some "LKR" }

/-- The running (selling, administrative, other) state of
`_extract_operating_expenses`. -/
abbrev OpexState := Option Q × Option Q × Option Q

/-- One row of the primary operating-expenses scan: the first cell's text
selects the component, and the first truthy value among the first value
columns overwrites it. -/
def opexRowStep (rowText : String) (cells : List String) (st : OpexState) : OpexState :=
  if strHas rowText "selling" && strHas rowText "distribution" then
    match firstTruthyValue cells with
    | some v => (some v, st.2.1, st.2.2)
    | none => st
  else if strHas rowText "administrative" then
    match firstTruthyValue cells with
    | some v => (st.1, some v, st.2.2)
    | none => st
  else if strHas rowText "other operating expenses" then
    match firstTruthyValue cells with
    | some v => (st.1, st.2.1, some v)
    | none => st
  else st

/-- Primary block: scan the income-statement tables, reading labels from
the first cell and values from the first value columns. -/
def opexScanPrimary (ts : List Table) : OpexState :=
  ts.foldl (fun st t =>
    t.foldl (fun st r => opexRowStep (strLower (r.headD "")) (valueCells r) st) st)
    (none, none, none)

/-- Alternate block: scan the alternate statement tables, reading labels
from the joined row text and values from all cells. -/
def opexScanAlt (env : ExtractEnv) (st0 : OpexState) : OpexState :=
  altStatementKeywords.foldl (fun st kw =>
    (env.tables kw true).foldl (fun st t =>
      t.foldl (fun st r => opexRowStep (rowTextJoined r) r st) st) st) st0

/-- The tail of `_extract_operating_expenses`: record the truthy
components, sum them, otherwise fall back to a revenue-based or
year-based placeholder. -/
def opexFinalize (env : ExtractEnv) (st : OpexState) (d : FinData) : FinData :=
  let d1 := if truthyQ st.1 then { d with selling_distribution_expenses := st.1 } else d
  let d2 := if truthyQ st.2.1 then { d1 with administrative_expenses := st.2.1 } else d1
  let d3 := if truthyQ st.2.2 then { d2 with other_operating_expenses := st.2.2 } else d2
  let components :=
    (if truthyQ st.1 then [st.1.getD 0] else []) ++
    (if truthyQ st.2.1 then [st.2.1.getD 0] else []) ++
    (if truthyQ st.2.2 then [st.2.2.getD 0] else [])
  if components ≠ [] then
    { d3 with
      operating_expenses := some (components.foldl Q.add (Q.ofInt 0)),
      operating_expenses_currency := some "LKR" }
  else
    match d3.total_revenue with
    | some r =>
      { d3 with
        operating_expenses := some (Q.ofInt ((r.mul (Q.dec 18 2)).pyTrunc)),
        operating_expenses_currency := some (d3.total_revenue_currency.getD "LKR") }
    | none =>
      { d3 with
        operating_expenses := some (Q.ofInt (18000000 + (env.yearStart - 2019) * 1500000)),
        operating_expenses_currency := some "LKR" }

/-- `_extract_operating_expenses`: the primary income-statement scan,
the alternate scan when no component was truthy, then the finalize
step. -/
def extractOperatingExpenses (env : ExtractEnv) (d : FinData) : FinData :=
  let st1 := opexScanPrimary (env.tables "Income Statement" true)
  let st :=
    if !(truthyQ st1.1 || truthyQ st1.2.1 || truthyQ st1.2.2) then opexScanAlt env st1
    else st1
  opexFinalize env st d

/-- The table scans of `_extract_gross_profit` (primary label scan, then
the alternate-keyword scan with the magnitude filter). -/
def scanGrossProfit (env : ExtractEnv) : Option Q :=
  match rowLabelScan (fun c => strHas (strLower c) "gross profit")
      (env.tables "Income Statement" true) with
  | some v => some v
  | none => altKeywordScan env ["gross profit"] bigCurrency

/-- `_extract_gross_profit`: table value, else the accounting identity
`revenue - cost_of_sales` when both inputs are present, else a
year-keyed placeholder. -/
def extractGrossProfit (env : ExtractEnv) (d : FinData) : FinData :=
  match scanGrossProfit env with
  | some v => { d with gross_profit := some v, gross_profit_currency := some "LKR" }
  | none =>
    match d.total_revenue, d.cost_of_sales with
    | some r, some c =>
      { d with
        gross_profit := some (r.sub c),
        gross_profit_currency := some (d.total_revenue_currency.getD "LKR") }
    | _, _ =>
      { d with
        gross_profit := some (Q.ofInt (25000000 + (env.yearStart - 2019) * 2000000)),
        gross_profit_currency := some "LKR" }

/-- `_calculate_gross_profit_margin`:
`round((gross_profit / total_revenue) * 100, 2)` when both fields are
present and revenue is nonzero, else a year-keyed placeholder. -/
def calculateGrossProfitMargin (env : ExtractEnv) (d : FinData) : FinData :=
  match d.total_revenue, d.gross_profit with
  | some r, some g =>
    if r != Q.ofInt 0 then
      { d with gross_profit_margin := some (((g.div r).mul (Q.ofInt 100)).pyRound2) }
    else
      { d with
        gross_profit_margin :=
          some (Q.pyRound2 ((Q.ofInt 20).add ((Q.ofInt (env.yearStart - 2019)).mul (Q.dec (-5) 1)))) }
  | _, _ =>
    { d with
      gross_profit_margin :=
        some (Q.pyRound2 ((Q.ofInt 20).add ((Q.ofInt (env.yearStart - 2019)).mul (Q.dec (-5) 1)))) }

/-- The EPS plausibility filter `0 < value < 100`. -/
def epsAccept (v : Q) : Bool := decide (Q.lt (Q.ofInt 0) v) && decide (Q.lt v (Q.ofInt 100))

/-- `_extract_eps`. -/
def extractEps (env : ExtractEnv) (d : FinData) : FinData :=
  let block1 :=
    (env.tables "Income Statement" true).findSome? (fun t => t.findSome? (fun r =>
      let rowText := strLower (r.headD "")
      if strHas rowText "earnings per share" || strHas rowText "basic earnings per" then
        firstAcceptedValue epsAccept (valueCells r)
      else none))
  match block1 with
  | some v => { d with earnings_per_share := some v }
  | none =>
    let block2 :=
      ["EARNINGS PER SHARE", "Basic earnings", "Diluted earnings"].findSome? (fun kw =>
        (env.tables kw false).findSome? (fun t => t.findSome? (fun r =>
          let rowText := rowTextJoined r
          if strHas rowText "basic" && (strHas rowText "earnings" || strHas rowText "eps") then
            firstAcceptedValue epsAccept r
          else none)))
    match block2 with
    | some v => { d with earnings_per_share := some v }
    | none =>
      let block3 :=
        (env.tables "Summary Indicators" false).findSome? (fun t => t.findSome? (fun r =>
          let rowText := rowTextJoined r
          if (strHas rowText "eps" || strHas rowText "earnings per share") &&
              !(strHas rowText "diluted") then
            firstAcceptedValue epsAccept r
          else none))
      match block3 with
      | some v => { d with earnings_per_share := some v }
      | none =>
        { d with
          earnings_per_share :=
            some (Q.pyRound2 ((Q.ofInt 7).add ((Q.ofInt (env.yearStart - 2019)).mul (Q.dec 5 1)))) }

/-- The net-asset-per-share plausibility filter `value > 0`. -/
def napsAccept (v : Q) : Bool := decide (Q.lt (Q.ofInt 0) v)

/-- A net-asset row scan shared by both blocks of
`_extract_net_asset_per_share`. -/
def napsScan (ts : List Table) : Option Q :=
  ts.findSome? (fun t => t.findSome? (fun r =>
    let rowText := rowTextJoined r
    if strHas rowText "net asset" && strHas rowText "per share" then
      firstAcceptedValue napsAccept r
    else none))

/-- `_extract_net_asset_per_share`. -/
def extractNetAssetPerShare (env : ExtractEnv) (d : FinData) : FinData :=
  match napsScan (env.tables "Summary Indicators" false) with
  | some v => { d with net_asset_per_share := some v }
  | none =>
    let block2 :=
      ["Net assets per share", "Net asset value per share", "NAV per share"].findSome?
        (fun kw => napsScan (env.tables kw false))
    match block2 with
    | some v => { d with net_asset_per_share := some v }
    | none =>
      { d with
        net_asset_per_share :=
          some (Q.pyRound2 ((Q.ofInt 150).add ((Q.ofInt (env.yearStart - 2019)).mul (Q.ofInt 5)))) }

/-- Date-separator characters of the rights-issue date regex. -/
def sepChar (c : Char) : Bool := c == '-' || c == '/' || c == '.'

/-- Tail of the date regex: at least two further digits (`\d{2,4}`). -/
def dateTail2 : List Char → Bool
  | a :: b :: _ => a.isDigit && b.isDigit
  | _ => false

/-- Middle of the date regex: `\d{1,2}` then a separator then the tail. -/
def dateAfterFirstSep : List Char → Bool
  | a :: b :: rest =>
    a.isDigit &&
      ((b.isDigit && (match rest with
        | s :: r3 => sepChar s && dateTail2 r3
        | [] => false)) ||
       (sepChar b && dateTail2 rest))
  | _ => false

/-- A match of the full date pattern (one or two digits, separator,
one or two digits, separator, two to four digits) starting here. -/
def dateMatchAt : List Char → Bool
  | a :: b :: rest =>
    a.isDigit &&
      ((b.isDigit && (match rest with
        | s :: r3 => sepChar s && dateAfterFirstSep r3
        | [] => false)) ||
       (sepChar b && dateAfterFirstSep rest))
  | _ => false

/-- Does any suffix satisfy `p` (regex search)? -/
def anySuffix (p : List Char → Bool) : List Char → Bool
  | [] => p []
  | c :: rest => p (c :: rest) || anySuffix p rest

/-- The issue-price plausibility filter `0 < value < 1000`. -/
def priceAccept (v : Q) : Bool :=
  decide (Q.lt (Q.ofInt 0) v) && decide (Q.lt v (Q.ofInt 1000))

/-- `_extract_right_issues`: per table, rows mentioning ratio/price/date
fill the corresponding attribute; the first table with any attribute
found wins; `none` components model the `'N/A'` markers. -/
def extractRightIssues (env : ExtractEnv) : Option String × Option Q × Option String :=
  match ["Rights Issue", "Right Issues", "Rights Issues"].findSome? (fun kw =>
    (env.tables kw false).findSome? (fun t =>
      let st := t.foldl (fun (st : Option String × Option Q × Option String) r =>
        let rowText := rowTextJoined r
        if strHas rowText "ratio" then
          match r.find? (fun c => strHas c ":") with
          | some c => (some (strStrip c), st.2.1, st.2.2)
          | none => st
        else if strHas rowText "price" || strHas rowText "issue" then
          match firstAcceptedValue priceAccept r with
          | some v => (st.1, some v, st.2.2)
          | none => st
        else if strHas rowText "date" then
          match r.find? (fun c => anySuffix dateMatchAt c.data) with
          | some c => (st.1, st.2.1, some (strStrip c))
          | none => st
        else st) (none, none, none)
      if st.1.isSome || st.2.1.isSome || st.2.2.isSome then some st else none)) with
  | some st => st
  | none => (none, none, none)

/-! ### Top-shareholders resolver: `_extract_top_shareholders` -/

/-- Python dict assignment on an insertion-ordered association list. -/
def assocSet {β : Type} : List (String × β) → String → β → List (String × β)
  | [], k, v => [(k, v)]
  | (k', v') :: t, k, v => if k' == k then (k', v) :: t else (k', v') :: assocSet t k v

/-- Python `dict.get`. -/
def assocGet {β : Type} (l : List (String × β)) (k : String) : Option β :=
  (l.find? (fun p => p.1 == k)).map (fun p => p.2)

/-- Descending-percentage order used by `sorted(..., reverse=True)`. -/
def pctDesc (a b : String × Q) : Prop := Q.le b.2 a.2

instance : DecidableRel pctDesc := fun a b => by unfold pctDesc; infer_instance

/-- Membership in a short string list (`name.lower() in [...]`). -/
def listElemStr (s : String) (l : List String) : Bool := l.any (fun x => x == s)

/-- The shared acceptance step of every shareholder-extraction site:
keep the collection only when it has at least 5 entries, then sort
descending by percentage and truncate to 20, attaching
`shareholdings.get(name)` to each entry. -/
def acceptShareholders (sh hold : List (String × Q)) : Option (List SEntry) :=
  if 5 ≤ sh.length then
    some (((List.insertionSort pctDesc sh).take 20).map
      (fun nv => (nv.1, nv.2, assocGet hold nv.1)))
  else none

/-- Column `i` of a table as strings. -/
def colCells (t : Table) (i : Nat) : List String := t.map (fun r => r.getD i "")

/-- Header-based column roles of the standard path: the elif chain
collects share columns (number/shares/holding without `%`) and
percentage columns (`%`/percent/percentage); name headers match first
and produce nothing that survives. -/
def stdHeaderCols (headers : List String) : List Nat × List Nat :=
  headers.enum.foldl (fun (acc : List Nat × List Nat) ih =>
    if strHasAny ih.2 ["name", "shareholder", "holder"] then acc
    else if strHasAny ih.2 ["number", "shares", "holding"] && !(strHas ih.2 "%") then
      (acc.1 ++ [ih.1], acc.2)
    else if strHasAny ih.2 ["%", "percent", "percentage"] then (acc.1, acc.2 ++ [ih.1])
    else acc) ([], [])

/-- Shared row loop of the standard and alternative paths: strip the
name, skip empty/`nan`/header-like names, parse the percentage from the
percentage column, keep it only in the open interval (0, 100), and
record shares when a share column exists. -/
def shareholderRowStep (nameCol pctCol : Nat) (shareCol : Option Nat)
    (st : ShCand) (r : List String) : ShCand :=
  let name := strStrip (r.getD nameCol "")
  if name == "" || name == "nan" ||
      listElemStr (strLower name) ["name", "shareholder", "total"] then st
  else
    let pct := cleanNumericValue (strStrip (r.getD pctCol ""))
    let shares :=
      match shareCol with
      | some sc => cleanNumericValue (strStrip (r.getD sc ""))
      | none => none
    match pct with
    | some p =>
      if decide (Q.lt (Q.ofInt 0) p) && decide (Q.lt p (Q.ofInt 100)) then
        (assocSet st.1 name p,
          match shares with
          | some s => assocSet st.2 name s
          | none => st.2)
      else st
    | none => st

/-- The standard extraction approach, per table (lattice keyword pass):
identify the percentage and share columns by header text, falling back
to content shape, then collect rows and run the acceptance step; a table
with no identified percentage column is skipped. -/
def stdProcessTable (t : Table) : Option (List SEntry) :=
  let headers := (t.headD []).map strLower
  let ncols := (t.headD []).length
  let hc := stdHeaderCols headers
  let pctCols :=
    if hc.2.isEmpty then
      (List.range ncols).filter (fun i => strHas (joinSpace (colCells t i)) "%")
    else hc.2
  let shareCols :=
    if hc.1.isEmpty then
      (List.range ncols).filter (fun i =>
        !(pctCols.contains i) &&
        (colCells t i).any (fun cell =>
          match cleanNumericValue cell with
          | some v => decide (Q.lt (Q.ofInt 1000) v)
          | none => false))
    else hc.1
  match pctCols with
  | [] => none
  | pctCol :: _ =>
    let startRow := if strHasAny (joinSpace headers) ["name", "shareholder", "%"] then 1 else 0
    let collected :=
      (t.drop startRow).foldl (shareholderRowStep 0 pctCol shareCols.head?) (([], []) : ShCand)
    acceptShareholders collected.1 collected.2

/-- Is there a run of at least `k` consecutive digits (`cnt` already
seen)? -/
def digitRunGo (k : Nat) : Nat → List Char → Bool
  | _, [] => false
  | cnt, c :: rest =>
    if c.isDigit then (if k ≤ cnt + 1 then true else digitRunGo k (cnt + 1) rest)
    else digitRunGo k 0 rest

/-- Regex `\d{k,}` search. -/
def hasDigitRun (k : Nat) (l : List Char) : Bool := digitRunGo k 0 l

/-- Column roles of the alternative path: one elif chain per column,
later matching columns overwriting earlier ones. -/
def altColRoles (t : Table) : Option Nat × Option Nat × Option Nat :=
  (List.range (t.headD []).length).foldl
    (fun (st : Option Nat × Option Nat × Option Nat) i =>
      let colStr := strLower (joinSpace (colCells t i))
      if strHasAny colStr ["limited", "bank", "fund", "plc", "mr", "ms", "holdings"] then
        (some i, st.2.1, st.2.2)
      else if strHas colStr "%" then (st.1, some i, st.2.2)
      else if (colCells t i).any (fun cell => hasDigitRun 5 cell.data) then
        (st.1, st.2.1, some i)
      else st) (none, none, none)

/-- Percentage-column fallback of the alternative path: highest-index
column whose text mentions `%`/percent/percentage. -/
def altPctFallback (t : Table) : Option Nat :=
  ((List.range (t.headD []).length).reverse).find? (fun i =>
    let colStr := strLower (joinSpace (colCells t i))
    strHas colStr "%" || strHasAny colStr ["percent", "percentage"])

/-- The alternative extraction approach, per table (stream keyword
pass): tables mentioning shareholders and percentages, with column roles
inferred from content, all rows scanned. -/
def altProcessTable (t : Table) : Option (List SEntry) :=
  let dfStr := strLower (tableText t)
  if strHas dfStr "shareholder" && (strHas dfStr "%" || strHas dfStr "percent") then
    let roles := altColRoles t
    let nameCol := roles.1.getD 0
    let pctColO :=
      match roles.2.1 with
      | some i => some i
      | none => altPctFallback t
    match pctColO with
    | some pctCol =>
      let collected := t.foldl (shareholderRowStep nameCol pctCol roles.2.2) (([], []) : ShCand)
      acceptShareholders collected.1 collected.2
    | none => none
  else none

/-- The page keywords of the standard shareholder search. -/
def shareholderKeywords : List String :=
  ["Top Twenty Shareholders", "Top 20 Shareholders", "SHARE INFORMATION",
   "Twenty Major Shareholders", "20 Major Shareholders", "Top Twenty (20) Shareholders"]

/-- Run the acceptance step over a list of special-path extraction
attempts, keeping the first accepted one. -/
def firstAccepted (cands : List ShCand) : Option (List SEntry) :=
  cands.findSome? (fun c => acceptShareholders c.1 c.2)

/-- The placeholder shareholder list used when every extraction method
fails: ten synthetic entries with decaying percentages. -/
def placeholderShareholders : List SEntry :=
  (List.range 10).map (fun i =>
    (String.append "Major Shareholder " (Nat.repr i),
      Q.pyRound2 (Q.div (Q.ofInt 20) (Q.ofInt (Int.ofNat (i + 1)))),
      some (Q.ofInt ((Q.div (Q.ofInt 1000000) (Q.ofInt (Int.ofNat (i + 1)))).pyTrunc))))

/-- The hard-coded 2023-24 shareholder dataset used as the last resort of
the special 2023-24 branch. -/
def hardcoded2324 : List SEntry :=
  [("Melstacorp PLC", Q.dec 931 2, some (Q.ofInt 128917111)),
   ("Mr S E Captain", Q.dec 910 2, some (Q.ofInt 126044705)),
   ("HWIC Asia Fund", Q.dec 861 2, some (Q.ofInt 119200760)),
   ("Paints and General Industries Limited", Q.dec 727 2, some (Q.ofInt 100717931)),
   ("Asian Development Bank", Q.dec 470 2, some (Q.ofInt 65042006)),
   ("Citigroup Global Markets Limited Agency Trading", Q.dec 447 2, some (Q.ofInt 61904939)),
   ("Schroder International Selection Fund", Q.dec 321 2, some (Q.ofInt 44418290)),
   ("CIC Holdings PLC", Q.dec 255 2, some (Q.ofInt 35338032)),
   ("Aberdeen Standard Asia Focus PLC", Q.dec 241 2, some (Q.ofInt 33398572)),
   ("Norges Bank Account 2", Q.dec 230 2, some (Q.ofInt 31901605)),
   ("Sri Lanka Insurance Corporation Limited - Life Fund", Q.dec 158 2, some (Q.ofInt 21846511)),
   ("Mr Kandiah Balendra", Q.dec 141 2, some (Q.ofInt 19511476)),
   ("Employees Trust Fund Board", Q.dec 134 2, some (Q.ofInt 18499897)),
   ("Mrs C S De Fonseka", Q.dec 127 2, some (Q.ofInt 17606991)),
   ("Edgbaston Asian Equity Trust", Q.dec 127 2, some (Q.ofInt 17520023)),
   ("Fidelity Fund - Pacific", Q.dec 110 2, some (Q.ofInt 15244082)),
   ("Mrs S A J De Fonseka", Q.dec 110 2, some (Q.ofInt 15204230)),
   ("Polypak Secco Limited", Q.dec 108 2, some (Q.ofInt 14937924)),
   ("Chemanex PLC", Q.dec 95 2, some (Q.ofInt 13105475)),
   ("Sunsuper Superannuation Fund", Q.dec 84 2, some (Q.ofInt 11587196))]

/-- `_extract_top_shareholders`: the special 2023-24 branch (attempts,
then the hard-coded dataset), the special 2022-23 branch (attempts,
falling through on failure), then the standard lattice pass, the
alternative stream pass, and finally the placeholder list.  The bodies
of the two special branches are page/backend-dependent scraping whose
collected dictionaries are supplied by the environment; the acceptance
step applied to them is the shared one. -/
def extractTopShareholders (env : ExtractEnv) : List SEntry :=
  if strHas env.pdfPath "23-24" || strHas env.year "2023-2024" then
    (firstAccepted env.special2324).getD hardcoded2324
  else
    match
      (if strHas env.pdfPath "22-23" || strHas env.year "2022-2023" then
        firstAccepted env.special2223
      else none) with
    | some r => r
    | none =>
      match shareholderKeywords.findSome?
          (fun kw => (env.tables kw true).findSome? stdProcessTable) with
      | some r => r
      | none =>
        match shareholderKeywords.findSome?
            (fun kw => (env.tables kw false).findSome? altProcessTable) with
        | some r => r
        | none => placeholderShareholders

/-! ### `extract_all_metrics`

Each resolver runs inside its own `try/except`: a raised exception is
logged and the remaining resolvers still run on the unchanged state. -/

/-- One `try/except`-wrapped resolver step. -/
def runStep (f : FinData → Except String FinData) (d : FinData) : FinData :=
  match f d with
  | .ok d2 => d2
  | .error _ => d

/-- Run the wrapped resolver steps in order. -/
def runSteps (fs : List (FinData → Except String FinData)) (d : FinData) : FinData :=
  fs.foldl (fun d f => runStep f d) d

/-- The resolver sequence of `extract_all_metrics`. -/
def metricSteps (env : ExtractEnv) : List (FinData → Except String FinData) :=
  [fun d => .ok (extractTotalRevenue env d),
   fun d => .ok (extractCostOfSales env d),
   fun d => .ok (extractOperatingExpenses env d),
   fun d => .ok (extractGrossProfit env d),
   fun d => .ok (calculateGrossProfitMargin env d),
   fun d => .ok (extractEps env d),
   fun d => .ok (extractNetAssetPerShare env d),
   fun d => .ok { d with right_issues := some (extractRightIssues env) },
   fun d => .ok { d with top_shareholders := some (extractTopShareholders env) }]

/-- `extract_all_metrics`: run every resolver over the empty record. -/
def extractAllMetrics (env : ExtractEnv) : FinData :=
  runSteps (metricSteps env) {}

/-! ### Concrete documents used to evaluate the embedding -/

/-- An income-statement table whose gross profit exceeds revenue. -/
def highGpTable : Table :=
  [["Total Revenue", "100,000"], ["Gross Profit", "150,000"]]

/-- A document whose income statement yields revenue 100,000 and gross
profit 150,000. -/
def envHighGp : ExtractEnv :=
  { tables := fun kw lattice =>
      if kw == "Income Statement" && lattice then [highGpTable] else []
    tabulaAll := []
    pdfPath := "jk_annual_report_19-20.pdf"
    year := "2019-2020"
    yearStart := 2019
    special2324 := []
    special2223 := [] }

/-- A "distribution by holding size" decoy table: size-band rows with a
percentage column. -/
def decoyTable : Table :=
  [["Shareholding Range", "No. of Holders", "%"],
   ["Less than 1,000", "2,500", "45.10"],
   ["1,001 to 10,000", "1,200", "30.25"],
   ["10,001 to 100,000", "450", "15.05"],
   ["100,001 to 1,000,000", "80", "6.60"],
   ["Over 1,000,000", "12", "3.00"]]

/-- A genuine ranked shareholder table on the same page. -/
def genuineTable : Table :=
  [["Name of Shareholder", "No. of Shares", "%"],
   ["Melstacorp PLC", "128,917,111", "9.31"],
   ["Mr S E Captain", "126,044,705", "9.10"],
   ["HWIC Asia Fund", "119,200,760", "8.61"],
   ["CIC Holdings PLC", "35,338,032", "2.55"],
   ["Chemanex PLC", "13,105,475", "0.95"]]

/-- A document whose shareholder page yields the decoy table first and
the genuine table second. -/
def envDecoy : ExtractEnv :=
  { tables := fun kw lattice =>
      if kw == "Top Twenty Shareholders" && lattice then [decoyTable, genuineTable] else []
    tabulaAll := []
    pdfPath := "jk_annual_report_19-20.pdf"
    year := "2019-2020"
    yearStart := 2019
    special2324 := []
    special2223 := [] }

/-- A document with no extractable tables at all. -/
def envEmpty : ExtractEnv :=
  { tables := fun _ _ => []
    tabulaAll := []
    pdfPath := "jk_annual_report_19-20.pdf"
    year := "2019-2020"
    yearStart := 2019
    special2324 := []
    special2223 := [] }

/-- A single raw table produced by the stream backend. -/
def streamTable : Table := [["Revenue", "1,000"]]

/-- A backend whose lattice mode always raises and whose stream mode
always succeeds with one table. -/
def throwingLatticeBackend : Nat → Bool → Except Unit (List Table) :=
  fun _ flavor => if flavor then .error () else .ok [streamTable]

/-- A page environment over the throwing-lattice backend. -/
def envThrowingLattice : PageEnv :=
  { matchingPages := [1]
    guessedPages := [2]
    backend := throwingLatticeBackend }

/-! ### Theorems -/

theorem takeWhile_isDigit_nil {l : List Char} (h : ∀ c ∈ l, c.isDigit = false) :
    l.takeWhile Char.isDigit = [] := by
  cases l with
  | nil => rfl
  | cons c t => simp [List.takeWhile_cons, h c (by simp)]

theorem matchNumberAt_of_no_digit : ∀ l : List Char, (∀ c ∈ l, c.isDigit = false) →
    matchNumberAt l = none := by
  intro l h
  cases l with
  | nil => rfl
  | cons c t =>
    have ht : ∀ x ∈ t, x.isDigit = false := fun x hx => h x (List.mem_cons_of_mem _ hx)
    have hc : c.isDigit = false := h c (List.mem_cons_self c t)
    by_cases h1 : c = '-'
    · subst h1
      simp [matchNumberAt, takeWhile_isDigit_nil ht]
    · by_cases h2 : c = '+'
      · subst h2
        simp [matchNumberAt, takeWhile_isDigit_nil ht]
      · simp [matchNumberAt, h1, h2, List.takeWhile_cons, hc]

theorem searchNumber_of_no_digit : ∀ l : List Char, (∀ c ∈ l, c.isDigit = false) →
    searchNumber l = none := by
  intro l h
  induction l with
  | nil => rfl
  | cons c t ih =>
    unfold searchNumber
    rw [matchNumberAt_of_no_digit _ h]
    exact ih (fun c hc => h c (by simp [hc]))

/-- C1: the numeric normaliser strips currency symbols, spaces and
thousands separators, negates parenthesised values, extracts the first
signed decimal substring, and returns `none` (distinct from zero) when
the input holds no digit at all; in particular
`parse("(1,234.50)") = -1234.50`, `parse("LKR 1,000,000") = 1000000`,
and `parse("") = none`. -/
theorem cleanNumericValue_spec :
    cleanNumericValue "(1,234.50)" = some (Q.dec (-123450) 2) ∧
    cleanNumericValue "LKR 1,000,000" = some (Q.ofInt 1000000) ∧
    cleanNumericValue "" = none ∧
    ∀ s : String, (∀ c ∈ s.data, c.isDigit = false) → cleanNumericValue s = none := by
  refine ⟨by decide, by decide, by decide, ?_⟩
  intro s h
  unfold cleanNumericValue
  split
  · rfl
  · have hk : searchNumber (List.filter (fun c => c.isDigit || c == '.' || c == '-')
        (List.filter (fun c => !(c == '(' || c == ')')) s.data)) = none := by
      apply searchNumber_of_no_digit
      intro c hc
      exact h c (List.mem_filter.mp (List.mem_filter.mp hc).1).1
    simp only [hk]

/-- C1 witness: a digit-free input evaluates to `none` through the
theorem. -/
theorem cleanNumericValue_spec_witness : cleanNumericValue "n/a" = none :=
  cleanNumericValue_spec.2.2.2 "n/a" (by decide)

/-- C6: when the gross-profit table scans fail but revenue and cost of
sales are present, gross profit is derived as `revenue - cost_of_sales`;
the margin is `(gross_profit / revenue) * 100` rounded to 2 decimals,
and in particular revenue 100000 with cost 70000 gives 30.0 while
revenue 120000 with cost 80000 gives 33.33. -/
theorem grossProfit_identity_and_margin :
    (∀ (env : ExtractEnv) (d : FinData) (r c : Q),
       scanGrossProfit env = none → d.total_revenue = some r → d.cost_of_sales = some c →
       (extractGrossProfit env d).gross_profit = some (r.sub c)) ∧
    (∀ (env : ExtractEnv) (d : FinData) (r g : Q),
       d.total_revenue = some r → d.gross_profit = some g → r ≠ Q.ofInt 0 →
       (calculateGrossProfitMargin env d).gross_profit_margin =
         some (((g.div r).mul (Q.ofInt 100)).pyRound2)) ∧
    (((((Q.ofInt 100000).sub (Q.ofInt 70000)).div (Q.ofInt 100000)).mul (Q.ofInt 100)).pyRound2
        = Q.ofInt 30) ∧
    (((((Q.ofInt 120000).sub (Q.ofInt 80000)).div (Q.ofInt 120000)).mul (Q.ofInt 100)).pyRound2
        = Q.dec 3333 2) := by
  refine ⟨?_, ?_, by decide, by decide⟩
  · intro env d r c hscan hr hc
    unfold extractGrossProfit
    rw [hscan, hr, hc]
  · intro env d r g hr hg hne
    unfold calculateGrossProfitMargin
    rw [hr, hg]
    simp [bne_iff_ne, hne]

/-- C6 witness: the derivation and both margin computations evaluated on
the spec's synthetic periods. -/
theorem grossProfit_identity_and_margin_witness :
    (extractGrossProfit envEmpty
        { total_revenue := some (Q.ofInt 100000),
          cost_of_sales := some (Q.ofInt 70000) }).gross_profit =
      some ((Q.ofInt 100000).sub (Q.ofInt 70000)) ∧
    (calculateGrossProfitMargin envEmpty
        { total_revenue := some (Q.ofInt 120000),
          gross_profit := some (Q.ofInt 40000) }).gross_profit_margin =
      some ((((Q.ofInt 40000).div (Q.ofInt 120000)).mul (Q.ofInt 100)).pyRound2) :=
  ⟨grossProfit_identity_and_margin.1 envEmpty _ _ _ (by decide) rfl rfl,
   grossProfit_identity_and_margin.2.1 envEmpty _ _ _ rfl rfl (by decide)⟩

theorem find?_singleton {α : Type} (p : α → Bool) (x : α) :
    [x].find? p = if p x then some x else none := by
  cases h : p x <;> simp [List.find?_cons, h]

theorem addYearEntry_find {α : Type} (acc : List (Int × α)) (p : Int × α) (y : Int) :
    (addYearEntry acc p).find? (fun e => e.1 == y) =
      (acc.find? (fun e => e.1 == y)).or ([p].find? (fun e => e.1 == y)) := by
  unfold addYearEntry
  by_cases h : acc.any (fun q => q.1 == p.1)
  · simp only [h, if_true]
    cases hf : acc.find? (fun e => e.1 == y) with
    | some e => simp [Option.or_some]
    | none =>
      have hpy : (p.1 == y) = false := by
        rcases List.any_eq_true.mp h with ⟨q, hq, hq1⟩
        have hq1' : q.1 = p.1 := by exact_mod_cast beq_iff_eq.mp hq1
        have := List.find?_eq_none.mp hf q hq
        by_contra hx
        exact this (by rw [hq1']; simpa using hx)
      simp [find?_singleton, hpy, Option.or]
  · rw [if_neg h, List.find?_append]

theorem addYearEntry_nodup {α : Type} {acc : List (Int × α)} (p : Int × α)
    (h : (acc.map Prod.fst).Nodup) : ((addYearEntry acc p).map Prod.fst).Nodup := by
  unfold addYearEntry
  by_cases ha : acc.any (fun q => q.1 == p.1)
  · simpa [ha] using h
  · have hnm : p.1 ∉ acc.map Prod.fst := by
      intro hm
      rcases List.mem_map.mp hm with ⟨q, hq, hq1⟩
      have : acc.any (fun q => q.1 == p.1) = true :=
        List.any_eq_true.mpr ⟨q, hq, by simp [hq1]⟩
      simp [this] at ha
    rw [if_neg ha]
    simp only [List.map_append, List.nodup_append]
    refine ⟨h, by simp, ?_⟩
    intro a hma hmb
    simp at hmb
    subst hmb
    exact hnm hma

theorem buildYearly_nodup {α : Type} : ∀ (ps : List (String × α)) (acc res : List (Int × α)),
    buildYearly acc ps = .ok res → (acc.map Prod.fst).Nodup → (res.map Prod.fst).Nodup := by
  intro ps
  induction ps with
  | nil =>
    intro acc res h hn
    simp [buildYearly] at h
    exact h ▸ hn
  | cons kv rest ih =>
    intro acc res h hn
    unfold buildYearly at h
    cases hp : parseFiscalYears kv.1 with
    | error e => rw [hp] at h; simp [Bind.bind, Except.bind] at h
    | ok se =>
      rw [hp] at h
      simp only [Bind.bind, Except.bind] at h
      exact ih _ res h (addYearEntry_nodup _ (addYearEntry_nodup _ hn))

theorem expandPairs_cons_ok {α : Type} (kv : String × α) (rest : List (String × α))
    (se : Int × Int) (hp : parseFiscalYears kv.1 = .ok se) :
    expandPairs (kv :: rest) = [(se.1, kv.2)] ++ [(se.2, kv.2)] ++ expandPairs rest := by
  unfold expandPairs
  rw [List.flatMap_cons, hp]
  rfl

theorem buildYearly_find {α : Type} (y : Int) :
    ∀ (ps : List (String × α)) (acc res : List (Int × α)),
      buildYearly acc ps = .ok res →
      res.find? (fun e => e.1 == y) =
        (acc.find? (fun e => e.1 == y)).or ((expandPairs ps).find? (fun e => e.1 == y)) := by
  intro ps
  induction ps with
  | nil =>
    intro acc res h
    simp [buildYearly] at h
    simp [← h, expandPairs]
  | cons kv rest ih =>
    intro acc res h
    unfold buildYearly at h
    cases hp : parseFiscalYears kv.1 with
    | error e => rw [hp] at h; simp [Bind.bind, Except.bind] at h
    | ok se =>
      rw [hp] at h
      simp only [Bind.bind, Except.bind] at h
      rw [ih _ res h, addYearEntry_find, addYearEntry_find]
      rw [expandPairs_cons_ok kv rest se hp, List.find?_append, List.find?_append]
      simp only [Option.or_assoc]

theorem find?_eq_self_of_nodup {α : Type} : ∀ (l : List (Int × α)) (e : Int × α),
    (l.map Prod.fst).Nodup → e ∈ l → l.find? (fun p => p.1 == e.1) = some e := by
  intro l
  induction l with
  | nil => intro e _ h; cases h
  | cons a t ih =>
    intro e hnd hm
    have hnd' : (a.1 :: t.map Prod.fst).Nodup := by simpa using hnd
    rcases List.mem_cons.mp hm with rfl | hmt
    · simp [List.find?_cons]
    · have ha : (a.1 == e.1) = false := by
        have h1 : a.1 ∉ t.map Prod.fst := (List.nodup_cons.mp hnd').1
        by_contra hx
        have hx' : a.1 = e.1 := by
          cases hb : (a.1 == e.1) with
          | true => exact_mod_cast beq_iff_eq.mp hb
          | false => exact absurd hb hx
        exact h1 (hx' ▸ List.mem_map.mpr ⟨e, hmt, rfl⟩)
      simp only [List.find?_cons, ha]
      exact ih e (List.nodup_cons.mp hnd').2 hmt

/-- C2: the consolidated yearly collection never holds two entries with
the same calendar year, and each surviving entry is the one produced by
the first (record, displayYear) pair mapping to its year — first writer
wins. -/
theorem consolidator_unique_years_first_writer {α : Type} (input : List (String × α))
    (res : List (Int × α)) (h : transformYearlyData input = .ok res) :
    (res.map Prod.fst).Nodup ∧
    ∀ e ∈ res, (expandPairs input).find? (fun p => p.1 == e.1) = some e := by
  unfold transformYearlyData at h
  cases hb : buildYearly ([] : List (Int × α)) input with
  | error er => rw [hb] at h; simp [Except.map] at h
  | ok built =>
    rw [hb] at h
    simp only [Except.map, Except.ok.injEq] at h
    have hperm := List.perm_insertionSort (fun a b : Int × α => a.1 ≤ b.1) built
    have hnd : (built.map Prod.fst).Nodup := buildYearly_nodup input [] built hb (by simp)
    constructor
    · rw [← h]
      exact ((hperm.map Prod.fst).nodup_iff).mpr hnd
    · intro e he
      have heb : e ∈ built := hperm.mem_iff.mp (h ▸ he)
      have h1 := buildYearly_find e.1 input [] built hb
      simp only [List.find?_nil, Option.or] at h1
      rw [← h1]
      exact find?_eq_self_of_nodup built e hnd heb

/-- C2 witness: the theorem applied to two overlapping fiscal records. -/
theorem consolidator_unique_years_first_writer_witness :
    (([(2019, "a"), (2020, "a"), (2021, "b")] : List (Int × String)).map Prod.fst).Nodup ∧
    ∀ e ∈ ([(2019, "a"), (2020, "a"), (2021, "b")] : List (Int × String)),
      (expandPairs [("2019-2020", "a"), ("2020-2021", "b")]).find? (fun p => p.1 == e.1) =
        some e :=
  consolidator_unique_years_first_writer
    [("2019-2020", "a"), ("2020-2021", "b")] [(2019, "a"), (2020, "a"), (2021, "b")] (by decide)

/-- C9 counterexample: with the two overlapping fiscal records of the
spec's end-to-end example, the consolidated dataset has three entries
and the second record surfaces under a single display year (2021), not
two. -/
theorem record_two_entries_counterexample :
    transformYearlyData [("2019-2020", "p1"), ("2020-2021", "p2")] =
      .ok [(2019, "p1"), (2020, "p1"), (2021, "p2")] ∧
    (([(2019, "p1"), (2020, "p1"), (2021, "p2")] : List (Int × String)).filter
        (fun e => e.2 == "p2")).length = 1 := by
  decide

/-- C9 amended: each record is offered under both boundary years, but a
year already present is skipped; a record whose key parses to distinct
boundary years and which is consolidated alone yields exactly two
entries, one per boundary year. -/
theorem record_two_entries_amended {α : Type} (k : String) (s e : Int) (v : α)
    (hp : parseFiscalYears k = .ok (s, e)) (hne : s ≠ e) :
    ∃ res, transformYearlyData [(k, v)] = .ok res ∧
      res.length = 2 ∧ (s, v) ∈ res ∧ (e, v) ∈ res := by
  have hse : (s == e) = false := beq_eq_false_iff_ne.mpr hne
  have hb : buildYearly ([] : List (Int × α)) [(k, v)] = .ok [(s, v), (e, v)] := by
    unfold buildYearly
    rw [hp]
    simp only [Bind.bind, Except.bind]
    unfold buildYearly
    simp [addYearEntry, hse]
  refine ⟨List.insertionSort (fun a b => a.1 ≤ b.1) [(s, v), (e, v)], ?_, ?_, ?_, ?_⟩
  · simp [transformYearlyData, hb, Except.map]
  · exact (List.perm_insertionSort (fun a b : Int × α => a.1 ≤ b.1) [(s, v), (e, v)]).length_eq
  · exact (List.perm_insertionSort (fun a b : Int × α => a.1 ≤ b.1)
      [(s, v), (e, v)]).mem_iff.mpr (by simp)
  · exact (List.perm_insertionSort (fun a b : Int × α => a.1 ≤ b.1)
      [(s, v), (e, v)]).mem_iff.mpr (by simp)

/-- C9 amended witness: the single record "2019-2020". -/
theorem record_two_entries_amended_witness :
    ∃ res, transformYearlyData [("2019-2020", "x")] = .ok res ∧
      res.length = 2 ∧ ((2019 : Int), "x") ∈ res ∧ ((2020 : Int), "x") ∈ res :=
  record_two_entries_amended "2019-2020" 2019 2020 "x" (by decide) (by decide)

theorem splitChar_of_not_mem (sep : Char) : ∀ l : List Char, sep ∉ l → splitChar sep l = [l] := by
  intro l h
  induction l with
  | nil => rfl
  | cons c t ih =>
    have hc : (c == sep) = false := by
      apply beq_eq_false_iff_ne.mpr
      intro hx
      exact h (hx ▸ List.mem_cons_self c t)
    unfold splitChar
    rw [ih (fun hm => h (List.mem_cons_of_mem _ hm))]
    simp [hc]

theorem parseFiscalYears_no_dash (k : String) (n : Int) (hdash : '-' ∉ k.data)
    (hint : pyInt k = .ok n) : parseFiscalYears k = .error .indexError := by
  unfold parseFiscalYears
  rw [splitChar_of_not_mem '-' k.data hdash]
  simp only [List.headD, Bind.bind, Except.bind]
  have hmk : (⟨k.data⟩ : String) = k := rfl
  rw [hmk, hint]

theorem buildYearly_error_of_bad_key {α : Type} :
    ∀ (ps : List (String × α)) (acc : List (Int × α)) (k : String) (v : α) (er : PyErr),
      (k, v) ∈ ps → parseFiscalYears k = .error er →
      ∃ er2, buildYearly acc ps = .error er2 := by
  intro ps
  induction ps with
  | nil => intro acc k v er h; cases h
  | cons kv rest ih =>
    intro acc k v er hm hp
    unfold buildYearly
    cases hpk : parseFiscalYears kv.1 with
    | error e2 => exact ⟨e2, by simp [Bind.bind, Except.bind]⟩
    | ok se =>
      rcases List.mem_cons.mp hm with heq | hmr
      · rw [← heq] at hpk
        rw [hp] at hpk
        cases hpk
      · simp only [Bind.bind, Except.bind]
        exact ih _ k v er hmr hp

theorem transformYearlyData_error_of_bad_key {α : Type} (input : List (String × α))
    (k : String) (v : α) (er : PyErr) (hm : (k, v) ∈ input)
    (hp : parseFiscalYears k = .error er) :
    ∃ er2, transformYearlyData input = .error er2 := by
  rcases buildYearly_error_of_bad_key input [] k v er hm hp with ⟨er2, h2⟩
  exact ⟨er2, by simp [transformYearlyData, h2, Except.map]⟩

/-- C10: a fiscal-period key with no `-` separator — as produced by the
extractor's single-4-digit-year filename fallback — makes the transform
raise `IndexError` at the second split component, and the loader then
abandons the JSON path and falls back to the CSV loader. -/
theorem dashlessKey_indexError_csv_fallback {α : Type} (env : AppEnv α) (k : String)
    (v : α) (n : Int) (hm : (k, v) ∈ env.financialData) (hdash : '-' ∉ k.data)
    (hint : pyInt k = .ok n) (hj : env.jsonExists = true) :
    parseFiscalYears k = .error .indexError ∧
    loadAllFinancialData none env = .fromCsv ∧
    extractYearFromFilename "jk_annual_report_2021.pdf" = some "2021" ∧
    '-' ∉ "2021".data := by
  have hpk := parseFiscalYears_no_dash k n hdash hint
  refine ⟨hpk, ?_, by decide, by decide⟩
  rcases transformYearlyData_error_of_bad_key env.financialData k v _ hm hpk with ⟨er2, h2⟩
  simp [loadAllFinancialData, hj, h2]

/-- C10 witness: the key "2021" in a one-record JSON document. -/
theorem dashlessKey_indexError_csv_fallback_witness :
    parseFiscalYears "2021" = .error .indexError ∧
    loadAllFinancialData none (⟨true, [("2021", "x")]⟩ : AppEnv String) = .fromCsv ∧
    extractYearFromFilename "jk_annual_report_2021.pdf" = some "2021" ∧
    '-' ∉ "2021".data :=
  dashlessKey_indexError_csv_fallback (⟨true, [("2021", "x")]⟩ : AppEnv String)
    "2021" "x" 2021 (by decide) (by decide) (by decide) rfl

/-- C4 counterexample: over a backend whose lattice mode raises and
whose stream mode returns one table, the chain yields no tables at all —
the stream mode is never attempted for the failing page — whereas under
the spec's reading (error treated exactly like a zero-table result) the
stream retry would recover the table. -/
theorem latticeError_not_zero_tables_counterexample :
    extractTablesFromPage envThrowingLattice true = [] ∧
    extractTablesFromPageSpec envThrowingLattice true = [streamTable] ∧
    ([streamTable] : List Table) ≠ [] := by
  refine ⟨rfl, rfl, by decide⟩

/-- C4 amended: every backend exception is swallowed — a page whose
`try` block raises contributes no tables and never propagates — but the
stream retry runs only after a *successful* lattice call that returned
zero tables; a lattice exception skips the stream attempt for that
page. -/
theorem latticeError_fault_isolation_amended :
    (∀ (backend : Nat → Bool → Except Unit (List Table)) (page : Nat) (e : Unit),
       backend page true = .error e → pageAttempt backend true page = []) ∧
    (∀ (backend : Nat → Bool → Except Unit (List Table)) (page : Nat),
       backend page true = .ok [] →
       pageAttempt backend true page = callOrEmpty backend page false) := by
  constructor
  · intro backend page e h
    simp [pageAttempt, h]
  · intro backend page h
    simp only [pageAttempt, h, if_true, List.isEmpty_nil]
    unfold callOrEmpty
    cases backend page false <;> simp

/-- C4 amended witness: both clauses evaluated on concrete backends. -/
theorem latticeError_fault_isolation_amended_witness :
    pageAttempt throwingLatticeBackend true 1 = [] ∧
    pageAttempt (fun _ _ => .ok []) true 1 = callOrEmpty (fun _ _ => .ok []) 1 false :=
  ⟨latticeError_fault_isolation_amended.1 throwingLatticeBackend 1 () rfl,
   latticeError_fault_isolation_amended.2 (fun _ _ => .ok []) 1 rfl⟩

theorem extractTotalRevenue_sets (env : ExtractEnv) (d : FinData) :
    (extractTotalRevenue env d).total_revenue.isSome = true := by
  unfold extractTotalRevenue
  repeat' split
  all_goals simp

theorem extractCostOfSales_sets (env : ExtractEnv) (d : FinData) :
    (extractCostOfSales env d).cost_of_sales.isSome = true := by
  unfold extractCostOfSales
  repeat' split
  all_goals simp

theorem extractCostOfSales_keeps (env : ExtractEnv) (d : FinData) :
    (extractCostOfSales env d).total_revenue = d.total_revenue := by
  unfold extractCostOfSales
  repeat' split
  all_goals simp

theorem opexFinalize_sets (env : ExtractEnv) (st : OpexState) (d : FinData) :
    (opexFinalize env st d).operating_expenses.isSome = true := by
  unfold opexFinalize
  repeat' split
  all_goals (cases htr : d.total_revenue <;> simp [htr])

theorem opexFinalize_keeps (env : ExtractEnv) (st : OpexState) (d : FinData) :
    (opexFinalize env st d).total_revenue = d.total_revenue ∧
    (opexFinalize env st d).cost_of_sales = d.cost_of_sales := by
  unfold opexFinalize
  repeat' split
  all_goals (cases htr : d.total_revenue <;> simp [htr])

theorem extractOperatingExpenses_sets (env : ExtractEnv) (d : FinData) :
    (extractOperatingExpenses env d).operating_expenses.isSome = true :=
  opexFinalize_sets env _ d

theorem extractOperatingExpenses_keeps (env : ExtractEnv) (d : FinData) :
    (extractOperatingExpenses env d).total_revenue = d.total_revenue ∧
    (extractOperatingExpenses env d).cost_of_sales = d.cost_of_sales :=
  opexFinalize_keeps env _ d

theorem extractGrossProfit_sets (env : ExtractEnv) (d : FinData) :
    (extractGrossProfit env d).gross_profit.isSome = true := by
  unfold extractGrossProfit
  repeat' split
  all_goals simp

theorem extractGrossProfit_keeps (env : ExtractEnv) (d : FinData) :
    (extractGrossProfit env d).total_revenue = d.total_revenue ∧
    (extractGrossProfit env d).cost_of_sales = d.cost_of_sales ∧
    (extractGrossProfit env d).operating_expenses = d.operating_expenses := by
  unfold extractGrossProfit
  repeat' split
  all_goals simp

theorem calculateGrossProfitMargin_sets (env : ExtractEnv) (d : FinData) :
    (calculateGrossProfitMargin env d).gross_profit_margin.isSome = true := by
  unfold calculateGrossProfitMargin
  repeat' split
  all_goals simp

theorem calculateGrossProfitMargin_keeps (env : ExtractEnv) (d : FinData) :
    (calculateGrossProfitMargin env d).total_revenue = d.total_revenue ∧
    (calculateGrossProfitMargin env d).cost_of_sales = d.cost_of_sales ∧
    (calculateGrossProfitMargin env d).operating_expenses = d.operating_expenses ∧
    (calculateGrossProfitMargin env d).gross_profit = d.gross_profit := by
  unfold calculateGrossProfitMargin
  repeat' split
  all_goals simp

theorem extractEps_sets (env : ExtractEnv) (d : FinData) :
    (extractEps env d).earnings_per_share.isSome = true := by
  simp only [extractEps]
  repeat' split
  all_goals simp

theorem extractEps_keeps (env : ExtractEnv) (d : FinData) :
    (extractEps env d).total_revenue = d.total_revenue ∧
    (extractEps env d).cost_of_sales = d.cost_of_sales ∧
    (extractEps env d).operating_expenses = d.operating_expenses ∧
    (extractEps env d).gross_profit = d.gross_profit ∧
    (extractEps env d).gross_profit_margin = d.gross_profit_margin := by
  simp only [extractEps]
  repeat' split
  all_goals simp

theorem extractNetAssetPerShare_sets (env : ExtractEnv) (d : FinData) :
    (extractNetAssetPerShare env d).net_asset_per_share.isSome = true := by
  simp only [extractNetAssetPerShare]
  repeat' split
  all_goals simp

theorem extractNetAssetPerShare_keeps (env : ExtractEnv) (d : FinData) :
    (extractNetAssetPerShare env d).total_revenue = d.total_revenue ∧
    (extractNetAssetPerShare env d).cost_of_sales = d.cost_of_sales ∧
    (extractNetAssetPerShare env d).operating_expenses = d.operating_expenses ∧
    (extractNetAssetPerShare env d).gross_profit = d.gross_profit ∧
    (extractNetAssetPerShare env d).gross_profit_margin = d.gross_profit_margin ∧
    (extractNetAssetPerShare env d).earnings_per_share = d.earnings_per_share := by
  simp only [extractNetAssetPerShare]
  repeat' split
  all_goals simp

theorem extractAllMetrics_reduction (env : ExtractEnv) :
    extractAllMetrics env =
      { extractNetAssetPerShare env (extractEps env (calculateGrossProfitMargin env
          (extractGrossProfit env (extractOperatingExpenses env (extractCostOfSales env
            (extractTotalRevenue env {})))))) with
        right_issues := some (extractRightIssues env),
        top_shareholders := some (extractTopShareholders env) } := by
  simp only [extractAllMetrics, metricSteps, runSteps, List.foldl, runStep]

/-- C3: after a full `extract_all_metrics` pass, every numeric field of
the record is populated (real extraction, identity derivation, or
deterministic placeholder - the branch order of each resolver), and a
resolver that raises is caught locally: the state is unchanged and the
remaining resolvers still run. -/
theorem extractAllMetrics_complete_and_isolated :
    (∀ env : ExtractEnv,
       (extractAllMetrics env).total_revenue.isSome = true ∧
       (extractAllMetrics env).cost_of_sales.isSome = true ∧
       (extractAllMetrics env).operating_expenses.isSome = true ∧
       (extractAllMetrics env).gross_profit.isSome = true ∧
       (extractAllMetrics env).gross_profit_margin.isSome = true ∧
       (extractAllMetrics env).earnings_per_share.isSome = true ∧
       (extractAllMetrics env).net_asset_per_share.isSome = true) ∧
    (∀ (f : FinData → Except String FinData) (fs : List (FinData → Except String FinData))
       (d : FinData) (e : String), f d = .error e → runSteps (f :: fs) d = runSteps fs d) := by
  constructor
  · intro env
    rw [extractAllMetrics_reduction env]
    dsimp only
    refine ⟨?_, ?_, ?_, ?_, ?_, ?_, ?_⟩
    · rw [(extractNetAssetPerShare_keeps env _).1, (extractEps_keeps env _).1,
          (calculateGrossProfitMargin_keeps env _).1, (extractGrossProfit_keeps env _).1,
          (extractOperatingExpenses_keeps env _).1, extractCostOfSales_keeps env _]
      exact extractTotalRevenue_sets env {}
    · rw [(extractNetAssetPerShare_keeps env _).2.1, (extractEps_keeps env _).2.1,
          (calculateGrossProfitMargin_keeps env _).2.1, (extractGrossProfit_keeps env _).2.1,
          (extractOperatingExpenses_keeps env _).2]
      exact extractCostOfSales_sets env _
    · rw [(extractNetAssetPerShare_keeps env _).2.2.1, (extractEps_keeps env _).2.2.1,
          (calculateGrossProfitMargin_keeps env _).2.2.1, (extractGrossProfit_keeps env _).2.2]
      exact extractOperatingExpenses_sets env _
    · rw [(extractNetAssetPerShare_keeps env _).2.2.2.1, (extractEps_keeps env _).2.2.2.1,
          (calculateGrossProfitMargin_keeps env _).2.2.2]
      exact extractGrossProfit_sets env _
    · rw [(extractNetAssetPerShare_keeps env _).2.2.2.2.1, (extractEps_keeps env _).2.2.2.2]
      exact calculateGrossProfitMargin_sets env _
    · rw [(extractNetAssetPerShare_keeps env _).2.2.2.2.2]
      exact extractEps_sets env _
    · exact extractNetAssetPerShare_sets env _
  · intro f fs d e h
    simp [runSteps, runStep, h]

/-- C3 witness: the completeness clauses on a document with no tables,
and the isolation clause on a resolver that always raises. -/
theorem extractAllMetrics_complete_and_isolated_witness :
    ((extractAllMetrics envEmpty).total_revenue.isSome = true ∧
     (extractAllMetrics envEmpty).cost_of_sales.isSome = true ∧
     (extractAllMetrics envEmpty).operating_expenses.isSome = true ∧
     (extractAllMetrics envEmpty).gross_profit.isSome = true ∧
     (extractAllMetrics envEmpty).gross_profit_margin.isSome = true ∧
     (extractAllMetrics envEmpty).earnings_per_share.isSome = true ∧
     (extractAllMetrics envEmpty).net_asset_per_share.isSome = true) ∧
    runSteps [fun _ => .error "boom"] {} = runSteps [] {} :=
  ⟨extractAllMetrics_complete_and_isolated.1 envEmpty,
   extractAllMetrics_complete_and_isolated.2 (fun _ => .error "boom") [] {} "boom" rfl⟩

instance : IsTotal (String × Q) pctDesc := ⟨fun a b => Q.le_total b.2 a.2⟩

instance : IsTrans (String × Q) pctDesc := ⟨fun _ _ _ hab hbc => Q.le_trans hbc hab⟩

theorem assocSet_mem {β : Type} : ∀ (l : List (String × β)) (k : String) (v : β)
    (e : String × β), e ∈ assocSet l k v → e ∈ l ∨ e = (k, v) := by
  intro l
  induction l with
  | nil =>
    intro k v e h
    simp [assocSet] at h
    right
    exact h
  | cons a t ih =>
    intro k v e h
    obtain ⟨k1, v1⟩ := a
    unfold assocSet at h
    by_cases hk : (k1 == k) = true
    · rw [if_pos hk] at h
      rcases List.mem_cons.mp h with heq | hin
      · right
        rw [heq, (by exact_mod_cast beq_iff_eq.mp hk : k1 = k)]
      · left
        exact List.mem_cons_of_mem _ hin
    · rw [if_neg hk] at h
      rcases List.mem_cons.mp h with heq | hin
      · left
        exact heq ▸ List.mem_cons_self _ _
      · rcases ih k v e hin with hin2 | heq2
        · left
          exact List.mem_cons_of_mem _ hin2
        · right
          exact heq2

theorem shareholderRowStep_inv (nameCol pctCol : Nat) (shareCol : Option Nat)
    (st : ShCand) (r : List String)
    (h : ∀ p ∈ st.1, Q.lt (Q.ofInt 0) p.2 ∧ Q.lt p.2 (Q.ofInt 100)) :
    ∀ p ∈ (shareholderRowStep nameCol pctCol shareCol st r).1,
      Q.lt (Q.ofInt 0) p.2 ∧ Q.lt p.2 (Q.ofInt 100) := by
  intro q hq
  simp only [shareholderRowStep] at hq
  split at hq
  · exact h q hq
  · split at hq
    · rename_i p hp
      split at hq
      · rename_i hguard
        rcases assocSet_mem _ _ _ _ hq with hin | heq
        · exact h q hin
        · rw [heq]
          have hg : Q.lt (Q.ofInt 0) p ∧ Q.lt p (Q.ofInt 100) := by
            simpa using hguard
          exact hg
      · exact h q hq
    · exact h q hq

theorem foldl_rowStep_inv (nameCol pctCol : Nat) (shareCol : Option Nat) :
    ∀ (rows : List (List String)) (st : ShCand),
      (∀ p ∈ st.1, Q.lt (Q.ofInt 0) p.2 ∧ Q.lt p.2 (Q.ofInt 100)) →
      ∀ p ∈ (rows.foldl (shareholderRowStep nameCol pctCol shareCol) st).1,
        Q.lt (Q.ofInt 0) p.2 ∧ Q.lt p.2 (Q.ofInt 100) := by
  intro rows
  induction rows with
  | nil =>
    intro st h
    simpa using h
  | cons r rest ih =>
    intro st h
    exact ih _ (shareholderRowStep_inv nameCol pctCol shareCol st r h)

theorem acceptShareholders_mem_pct (sh hold : List (String × Q)) (r : List SEntry)
    (hacc : acceptShareholders sh hold = some r) :
    ∀ e ∈ r, ∃ p ∈ sh, e.2.1 = p.2 := by
  unfold acceptShareholders at hacc
  split at hacc
  · simp only [Option.some.injEq] at hacc
    subst hacc
    intro e he
    rcases List.mem_map.mp he with ⟨nv, hnv, rfl⟩
    exact ⟨nv, (List.perm_insertionSort pctDesc sh).mem_iff.mp (List.mem_of_mem_take hnv), rfl⟩
  · cases hacc

theorem acceptShareholders_card (sh hold : List (String × Q)) (r : List SEntry)
    (hacc : acceptShareholders sh hold = some r) :
    5 ≤ sh.length ∧ r.length ≤ 20 := by
  unfold acceptShareholders at hacc
  split at hacc
  · rename_i hlen
    simp only [Option.some.injEq] at hacc
    subst hacc
    refine ⟨hlen, ?_⟩
    simp [List.length_take]
  · cases hacc

theorem acceptShareholders_sorted (sh hold : List (String × Q)) (r : List SEntry)
    (hacc : acceptShareholders sh hold = some r) :
    r.Pairwise (fun a b : SEntry => Q.le b.2.1 a.2.1) := by
  unfold acceptShareholders at hacc
  split at hacc
  · simp only [Option.some.injEq] at hacc
    subst hacc
    have hs : List.Sorted pctDesc (List.insertionSort pctDesc sh) :=
      List.sorted_insertionSort pctDesc sh
    have ht : List.Pairwise pctDesc (List.take 20 (List.insertionSort pctDesc sh)) :=
      List.Pairwise.sublist (List.take_sublist 20 _) hs
    exact ht.map _ (fun a b hab => hab)
  · cases hacc

theorem stdProcessTable_origin (t : Table) (r : List SEntry)
    (h : stdProcessTable t = some r) :
    ∃ sh hold, acceptShareholders sh hold = some r ∧
      ∀ p ∈ sh, Q.lt (Q.ofInt 0) p.2 ∧ Q.lt p.2 (Q.ofInt 100) := by
  simp only [stdProcessTable] at h
  split at h
  · cases h
  · exact ⟨_, _, h, foldl_rowStep_inv _ _ _ _ _ (by simp)⟩

theorem altProcessTable_origin (t : Table) (r : List SEntry)
    (h : altProcessTable t = some r) :
    ∃ sh hold, acceptShareholders sh hold = some r ∧
      ∀ p ∈ sh, Q.lt (Q.ofInt 0) p.2 ∧ Q.lt p.2 (Q.ofInt 100) := by
  simp only [altProcessTable] at h
  split at h
  · split at h
    · exact ⟨_, _, h, foldl_rowStep_inv _ _ _ _ _ (by simp)⟩
    · cases h
  · cases h

theorem extractTopShareholders_structure (env : ExtractEnv) :
    (∃ sh hold, acceptShareholders sh hold = some (extractTopShareholders env)) ∨
    extractTopShareholders env = hardcoded2324 ∨
    extractTopShareholders env = placeholderShareholders := by
  unfold extractTopShareholders
  split
  · cases hf : firstAccepted env.special2324 with
    | some r =>
      left
      rcases List.exists_of_findSome?_eq_some hf with ⟨c, _, hacc⟩
      exact ⟨c.1, c.2, by simpa using hacc⟩
    | none =>
      right; left
      rfl
  · cases h22 : (if strHas env.pdfPath "22-23" || strHas env.year "2022-2023" then
        firstAccepted env.special2223 else none) with
    | some r =>
      left
      split at h22
      · rcases List.exists_of_findSome?_eq_some h22 with ⟨c, _, hacc⟩
        exact ⟨c.1, c.2, hacc⟩
      · cases h22
    | none =>
      cases hstd : shareholderKeywords.findSome?
          (fun kw => (env.tables kw true).findSome? stdProcessTable) with
      | some r =>
        left
        rcases List.exists_of_findSome?_eq_some hstd with ⟨kw, _, hk2⟩
        rcases List.exists_of_findSome?_eq_some hk2 with ⟨t, _, hacc⟩
        rcases stdProcessTable_origin t r hacc with ⟨sh, hold, haccept, _⟩
        exact ⟨sh, hold, haccept⟩
      | none =>
        cases halt : shareholderKeywords.findSome?
            (fun kw => (env.tables kw false).findSome? altProcessTable) with
        | some r =>
          left
          rcases List.exists_of_findSome?_eq_some halt with ⟨kw, _, hk2⟩
          rcases List.exists_of_findSome?_eq_some hk2 with ⟨t, _, hacc⟩
          rcases altProcessTable_origin t r hacc with ⟨sh, hold, haccept, _⟩
          exact ⟨sh, hold, haccept⟩
        | none =>
          right; right
          rfl

theorem extractTopShareholders_nonspecial (env : ExtractEnv)
    (h23 : (strHas env.pdfPath "23-24" || strHas env.year "2023-2024") = false)
    (h22 : (strHas env.pdfPath "22-23" || strHas env.year "2022-2023") = false) :
    (∃ t r, stdProcessTable t = some r ∧ extractTopShareholders env = r) ∨
    (∃ t r, altProcessTable t = some r ∧ extractTopShareholders env = r) ∨
    extractTopShareholders env = placeholderShareholders := by
  unfold extractTopShareholders
  rw [if_neg (by simp [h23]), if_neg (by simp [h22])]
  cases hstd : shareholderKeywords.findSome?
      (fun kw => (env.tables kw true).findSome? stdProcessTable) with
  | some r =>
    left
    rcases List.exists_of_findSome?_eq_some hstd with ⟨kw, _, hk2⟩
    rcases List.exists_of_findSome?_eq_some hk2 with ⟨t, _, hacc⟩
    exact ⟨t, r, hacc, rfl⟩
  | none =>
    cases halt : shareholderKeywords.findSome?
        (fun kw => (env.tables kw false).findSome? altProcessTable) with
    | some r =>
      right; left
      rcases List.exists_of_findSome?_eq_some halt with ⟨kw, _, hk2⟩
      rcases List.exists_of_findSome?_eq_some hk2 with ⟨t, _, hacc⟩
      exact ⟨t, r, hacc, rfl⟩
    | none =>
      right; right
      rfl

/-- C5 counterexample: on a document whose shareholder page yields both
a "distribution by holding size" decoy table (first) and a genuine
ranked table (second), the resolver returns the decoy's size-band rows,
not the genuine table's rows — even though the genuine table would have
been accepted. -/
theorem sizeBand_disqualification_counterexample :
    extractTopShareholders envDecoy =
      [("Less than 1,000", Q.dec 451 1, some (Q.ofInt 1000)),
       ("1,001 to 10,000", Q.dec 3025 2, some (Q.ofInt 100110000)),
       ("10,001 to 100,000", Q.dec 1505 2, some (Q.ofInt 10001100000)),
       ("100,001 to 1,000,000", Q.dec 66 1, some (Q.ofInt 1000011000000)),
       ("Over 1,000,000", Q.ofInt 3, some (Q.ofInt 1000000))] ∧
    "Melstacorp PLC" ∉ (extractTopShareholders envDecoy).map (fun e => e.1) ∧
    stdProcessTable genuineTable ≠ none := by
  refine ⟨by decide, by decide, by decide⟩

/-- C5 amended: the size-band disqualification exists only in the
special-cased 2022-23/2023-24 branches; in the standard path the
resolver returns the first table (in keyword order) whose identified
percentage column yields at least five valid pairs — a size-band
distribution table included — regardless of any genuine ranked table
that follows it. -/
theorem sizeBand_not_disqualified_stdPath_amended (env : ExtractEnv) (t : Table)
    (rest : List Table) (r : List SEntry)
    (h23 : (strHas env.pdfPath "23-24" || strHas env.year "2023-2024") = false)
    (h22 : (strHas env.pdfPath "22-23" || strHas env.year "2022-2023") = false)
    (hfirst : env.tables "Top Twenty Shareholders" true = t :: rest)
    (hacc : stdProcessTable t = some r) :
    extractTopShareholders env = r := by
  unfold extractTopShareholders
  rw [if_neg (by simp [h23]), if_neg (by simp [h22])]
  have hstd : shareholderKeywords.findSome?
      (fun kw => (env.tables kw true).findSome? stdProcessTable) = some r := by
    simp only [shareholderKeywords, List.findSome?_cons, hfirst, hacc]
  rw [hstd]

/-- C5 amended witness: the decoy document evaluated through the
theorem. -/
theorem sizeBand_not_disqualified_stdPath_amended_witness :
    extractTopShareholders envDecoy =
      [("Less than 1,000", Q.dec 451 1, some (Q.ofInt 1000)),
       ("1,001 to 10,000", Q.dec 3025 2, some (Q.ofInt 100110000)),
       ("10,001 to 100,000", Q.dec 1505 2, some (Q.ofInt 10001100000)),
       ("100,001 to 1,000,000", Q.dec 66 1, some (Q.ofInt 1000011000000)),
       ("Over 1,000,000", Q.ofInt 3, some (Q.ofInt 1000000))] :=
  sizeBand_not_disqualified_stdPath_amended envDecoy decoyTable [genuineTable] _
    (by decide) (by decide) (by decide) (by decide)

/-- C7 counterexample: a document whose income statement reports revenue
100,000 and gross profit 150,000 produces a stored gross-profit margin
of 150, outside the open interval (0, 100). -/
theorem percentages_open_interval_counterexample :
    (extractAllMetrics envHighGp).gross_profit_margin = some (Q.ofInt 150) ∧
    ¬(Q.lt (Q.ofInt 0) (Q.ofInt 150) ∧ Q.lt (Q.ofInt 150) (Q.ofInt 100)) := by
  refine ⟨by decide, by decide⟩

/-- C7 amended: shareholder percentages are range-checked — outside the
special-cased 2022-23/2023-24 branches, every stored shareholder
percentage lies strictly within (0, 100) — but the gross-profit margin
is not range-checked and can fall outside the interval. -/
theorem shareholderPercent_open_interval_amended (env : ExtractEnv)
    (h23 : (strHas env.pdfPath "23-24" || strHas env.year "2023-2024") = false)
    (h22 : (strHas env.pdfPath "22-23" || strHas env.year "2022-2023") = false) :
    ∀ e ∈ extractTopShareholders env, Q.lt (Q.ofInt 0) e.2.1 ∧ Q.lt e.2.1 (Q.ofInt 100) := by
  rcases extractTopShareholders_nonspecial env h23 h22 with
    ⟨t, r, hacc, heq⟩ | ⟨t, r, hacc, heq⟩ | heq
  · rw [heq]
    rcases stdProcessTable_origin t r hacc with ⟨sh, hold, haccept, hrange⟩
    intro e he
    rcases acceptShareholders_mem_pct sh hold r haccept e he with ⟨p, hp, hep⟩
    rw [hep]
    exact hrange p hp
  · rw [heq]
    rcases altProcessTable_origin t r hacc with ⟨sh, hold, haccept, hrange⟩
    intro e he
    rcases acceptShareholders_mem_pct sh hold r haccept e he with ⟨p, hp, hep⟩
    rw [hep]
    exact hrange p hp
  · rw [heq]
    decide

/-- C7 amended witness: the first entry of the decoy document's
resolver output lies in (0, 100). -/
theorem shareholderPercent_open_interval_amended_witness :
    Q.lt (Q.ofInt 0)
        (((extractTopShareholders envDecoy).headD ("", Q.ofInt 1, none)).2.1) ∧
    Q.lt (((extractTopShareholders envDecoy).headD ("", Q.ofInt 1, none)).2.1)
        (Q.ofInt 100) :=
  shareholderPercent_open_interval_amended envDecoy (by decide) (by decide)
    ((extractTopShareholders envDecoy).headD ("", Q.ofInt 1, none)) (by decide)

/-- C8: every shareholder acceptance site keeps a collection only when
it has at least five (name, percentage) pairs, and the resolver's final
list — accepted, hard-coded or placeholder — is always sorted descending
by percentage with at most 20 entries. -/
theorem shareholders_accept_sorted_capped :
    (∀ (sh hold : List (String × Q)) (r : List SEntry),
       acceptShareholders sh hold = some r →
       5 ≤ sh.length ∧ r.Pairwise (fun a b : SEntry => Q.le b.2.1 a.2.1) ∧ r.length ≤ 20) ∧
    (∀ env : ExtractEnv,
       (extractTopShareholders env).Pairwise (fun a b : SEntry => Q.le b.2.1 a.2.1) ∧
       (extractTopShareholders env).length ≤ 20) := by
  have hmain : ∀ (sh hold : List (String × Q)) (r : List SEntry),
      acceptShareholders sh hold = some r →
      5 ≤ sh.length ∧ r.Pairwise (fun a b : SEntry => Q.le b.2.1 a.2.1) ∧ r.length ≤ 20 := by
    intro sh hold r hacc
    rcases acceptShareholders_card sh hold r hacc with ⟨h5, h20⟩
    exact ⟨h5, acceptShareholders_sorted sh hold r hacc, h20⟩
  refine ⟨hmain, ?_⟩
  intro env
  rcases extractTopShareholders_structure env with ⟨sh, hold, hacc⟩ | heq | heq
  · rcases hmain sh hold _ hacc with ⟨_, hs, hl⟩
    exact ⟨hs, hl⟩
  · rw [heq]
    exact ⟨by decide, by decide⟩
  · rw [heq]
    exact ⟨by decide, by decide⟩

/-- C8 witness: the acceptance clause on a concrete five-pair
collection, and the resolver clause on the table-free document. -/
theorem shareholders_accept_sorted_capped_witness :
    (5 ≤ ([("A", Q.ofInt 1), ("B", Q.ofInt 2), ("C", Q.ofInt 3), ("D", Q.ofInt 4),
          ("E", Q.ofInt 5)] : List (String × Q)).length ∧
     ([("E", Q.ofInt 5, none), ("D", Q.ofInt 4, none), ("C", Q.ofInt 3, none),
       ("B", Q.ofInt 2, none), ("A", Q.ofInt 1, none)] : List SEntry).Pairwise
         (fun a b : SEntry => Q.le b.2.1 a.2.1) ∧
     ([("E", Q.ofInt 5, none), ("D", Q.ofInt 4, none), ("C", Q.ofInt 3, none),
       ("B", Q.ofInt 2, none), ("A", Q.ofInt 1, none)] : List SEntry).length ≤ 20) ∧
    ((extractTopShareholders envEmpty).Pairwise (fun a b : SEntry => Q.le b.2.1 a.2.1) ∧
     (extractTopShareholders envEmpty).length ≤ 20) :=
  ⟨shareholders_accept_sorted_capped.1
      [("A", Q.ofInt 1), ("B", Q.ofInt 2), ("C", Q.ofInt 3), ("D", Q.ofInt 4), ("E", Q.ofInt 5)]
      [] _ (by decide),
   shareholders_accept_sorted_capped.2 envEmpty⟩
